import Mathlib

/-!
Shallow embedding of the docx-to-json extractor in src/app.py.

The program walks a parsed document object model (python-docx) and copies
attributes into a nested record, then a batch driver serializes one record
per matching file.  The document model is embedded as plain Lean structures
holding exactly the attribute slots the program reads; machine behaviour of
the Python code (truthiness tests, str rendering, exception swallowing,
os.path.splitext) is translated explicitly.

Modelling notes:
- Python str.strip is modelled by String.trim.  Python strips a superset of
  the Unicode whitespace characters that String.trim strips; no claim here
  depends on exotic whitespace, only on ordinary spaces and emptiness.
- int-valued attributes (alignment enums, Length, ilvl) are modelled as Int;
  Python renders them with str, modelled by toString.  Python truthiness of
  such a value is (value present and nonzero); truthiness of a string is
  nonemptiness.
- an attribute that can be absent (None) is an Option; getattr with a None
  default is the Option itself.
-/

namespace App

/-- Whitespace predicate used by the strip model (see modelling notes). -/
def pySpace (c : Char) : Bool := c.isWhitespace

/-- Python str.strip: drop leading and trailing whitespace (see modelling
notes on the whitespace predicate). -/
def trimL (l : List Char) : List Char :=
  ((l.dropWhile pySpace).reverse.dropWhile pySpace).reverse

/-- Python str.strip on a string. -/
def pyStrip (s : String) : String := String.mk (trimL s.data)

/-- Python str.startswith: a plain prefix test on the character list. -/
def pyStartsWith (s pre : String) : Bool := List.isPrefixOf pre.data s.data

/-- RGB value carried by run.font.color.rgb once obtained inside the try
block of get_font_properties: either an int instance (the code formats it
with the 06x format and a leading hash) or another object rendered by str. -/
inductive RgbVal where
  | int (n : Nat) : RgbVal
  | obj (s : String) : RgbVal
deriving DecidableEq

/-- The run.font.color object; rgb is none when the attribute is None or
falsy, mirroring the truthiness test in line 26 of src/app.py. -/
structure ColorObj where
  rgb : Option RgbVal
deriving DecidableEq

/-- The run.font object with exactly the attribute slots get_font_properties
reads.  hasSize, hasHighlight and hasColorAttr model the hasattr probes;
colorRaises models an exception raised while the try block in lines 25 to 30
touches the color object (attribute access or rgb resolution). -/
structure Font where
  hasSize : Bool
  size : Option Int
  name : Option String
  all_caps : Option Bool
  hasHighlight : Bool
  highlight_color : Option String
  subscript : Option Bool
  superscript : Option Bool
  hasColorAttr : Bool
  color : Option ColorObj
  colorRaises : Bool
deriving DecidableEq

/-- A run: text plus the direct attributes read with getattr in lines 12 to
14 of src/app.py, and the font object. -/
structure Run where
  text : String
  bold : Option Bool
  italic : Option Bool
  underline : Option Bool
  font : Font
deriving DecidableEq

/-- paragraph.paragraph_format with the slots get_paragraph_format reads.
Numeric and enum attributes are int-valued in the underlying model
(python-docx alignment enums and Length both subclass int); none models an
absent (None) value.  The four layout flags are tri-state. -/
structure PFmt where
  alignment : Option Int
  first_line_indent : Option Int
  left_indent : Option Int
  right_indent : Option Int
  line_spacing : Option Int
  space_before : Option Int
  space_after : Option Int
  keep_together : Option Bool
  keep_with_next : Option Bool
  page_break_before : Option Bool
  widow_control : Option Bool
deriving DecidableEq

/-- A paragraph as read by the extractor: text, style name, format object,
runs, plus the numbering-related probes of lines 105 and 106 of src/app.py
(hasattr of a numbering flag, of the pPr.numPr chain and of ilvl, and the
ilvl.val payload). -/
structure Para where
  text : String
  style_name : String
  fmt : PFmt
  runs : List Run
  hasNumbering : Bool
  hasNumPr : Bool
  hasIlvl : Bool
  ilvlVal : Int
deriving DecidableEq

/-- A table cell: the cell.text string supplied by the document model and the
cell paragraphs. -/
structure Cell where
  text : String
  paragraphs : List Para
deriving DecidableEq

/-- A table row. -/
structure TableRow where
  cells : List Cell
deriving DecidableEq

/-- A table; styleName is none when table.style is None, in which case the
code substitutes the string Normal. -/
structure Table where
  styleName : Option String
  rows : List TableRow
deriving DecidableEq

/-- A document section; header is the list of header paragraphs when
section.header is truthy, none otherwise (line 75 of src/app.py). -/
structure DocSection where
  header : Option (List Para)
deriving DecidableEq

/-- The parsed document object model, with the three collections the
extractor traverses. -/
structure Docx where
  sections : List DocSection
  paragraphs : List Para
  tables : List Table
deriving DecidableEq

/-- Output record of get_font_properties: all ten keys of the properties
dict built in lines 11 to 22 of src/app.py. -/
structure FontProperties where
  bold : Option Bool
  italic : Option Bool
  underline : Option Bool
  font_size : Option String
  font_name : Option String
  all_caps : Option Bool
  color : Option String
  highlight_color : Option String
  subscript : Option Bool
  superscript : Option Bool
deriving DecidableEq

/-- Output record of get_paragraph_format (lines 39 to 51 of src/app.py). -/
structure ParagraphFormat where
  alignment : Option String
  first_line_indent : Option String
  left_indent : Option String
  right_indent : Option String
  line_spacing : Option String
  space_before : Option String
  space_after : Option String
  keep_together : Option Bool
  keep_with_next : Option Bool
  page_break_before : Option Bool
  widow_control : Option Bool
deriving DecidableEq

/-- Output record for one run (text plus font_properties). -/
structure RunRecord where
  text : String
  font_properties : FontProperties
deriving DecidableEq

/-- Output record for a header paragraph or a cell paragraph: the code
builds these with four keys only (lines 78 to 83 and 151 to 156). -/
structure SimpleParaRecord where
  text : String
  style_name : String
  formatting : ParagraphFormat
  runs : List RunRecord
deriving DecidableEq

/-- Output record for a body paragraph, with the two extra list-related keys
of lines 100 to 107. -/
structure ParaRecord where
  text : String
  style_name : String
  formatting : ParagraphFormat
  runs : List RunRecord
  is_list_item : Bool
  list_level : Option Int
deriving DecidableEq

/-- Output record for a table cell (lines 143 to 146). -/
structure CellRecord where
  text : String
  paragraphs : List SimpleParaRecord
deriving DecidableEq

/-- Output record for a table (lines 135 to 138). -/
structure TableRecord where
  style : String
  rows : List (List CellRecord)
deriving DecidableEq

/-- The root output record of extract_docx_content (lines 65 to 71). -/
structure DocumentContent where
  paragraphs : List ParaRecord
  tables : List TableRecord
  headers : List SimpleParaRecord
  document_name : String
  lists : List (List ParaRecord)
deriving DecidableEq

/-- The Python idiom (str(x) if x else None) applied to an int-valued
optional attribute: None and the int 0 are both falsy, so a present zero
value renders as none exactly like an absent one. -/
def strIfTruthy (v : Option Int) : Option String :=
  match v with
  | some n => if n == 0 then none else some (toString n)
  | none => none

/-- Python str applied to an optional object: str(None) is the four-letter
string None. -/
def pyStrOpt (v : Option String) : String :=
  match v with
  | some s => s
  | none => "None"

/-- The f-string hash-06x rendering used for int rgb values in line 28. -/
def hex6 (n : Nat) : String :=
  let ds := Nat.toDigits 16 n
  "#" ++ String.mk (List.replicate (6 - ds.length) '0' ++ ds)

/-- The color computed by the try block in lines 24 to 30 of src/app.py: if
anything inside the block raises, the except clause passes and the initial
None survives; otherwise the guarded condition (hasattr, truthy color object,
truthy rgb) decides whether a value is rendered. -/
def colorValue (f : Font) : Option String :=
  if f.colorRaises then none
  else if f.hasColorAttr then
    match f.color with
    | some co =>
      match co.rgb with
      | some (RgbVal.int n) => some (hex6 n)
      | some (RgbVal.obj s) => some s
      | none => none
    | none => none
  else none

/-- Translation of get_font_properties (lines 7 to 32 of src/app.py).  The
dict is built with color initially None and the try block may overwrite it;
the net result is the colorValue field below. -/
def get_font_properties (run : Run) : FontProperties :=
  { bold := run.bold
    italic := run.italic
    underline := run.underline
    font_size := if run.font.hasSize then strIfTruthy run.font.size else none
    font_name := run.font.name
    all_caps := run.font.all_caps
    color := colorValue run.font
    highlight_color :=
      if run.font.hasHighlight then some (pyStrOpt run.font.highlight_color) else none
    subscript := run.font.subscript
    superscript := run.font.superscript }

/-- Translation of get_paragraph_format (lines 34 to 51 of src/app.py): each
numeric or enum attribute goes through (str(x) if x else None); the four
layout flags are passed through unchanged. -/
def get_paragraph_format (fmt : PFmt) : ParagraphFormat :=
  { alignment := strIfTruthy fmt.alignment
    first_line_indent := strIfTruthy fmt.first_line_indent
    left_indent := strIfTruthy fmt.left_indent
    right_indent := strIfTruthy fmt.right_indent
    line_spacing := strIfTruthy fmt.line_spacing
    space_before := strIfTruthy fmt.space_before
    space_after := strIfTruthy fmt.space_after
    keep_together := fmt.keep_together
    keep_with_next := fmt.keep_with_next
    page_break_before := fmt.page_break_before
    widow_control := fmt.widow_control }

/-- The guard (if para.text.strip()) that every paragraph loop applies. -/
def keepP (p : Para) : Bool := pyStrip p.text != ""

/-- The guard (if run.text.strip()) applied to runs. -/
def keptRun (r : Run) : Bool := pyStrip r.text != ""

/-- One appended run dict: the text key holds run.text verbatim, untrimmed
(lines 112 to 115, 87 to 90 and 160 to 163 of src/app.py). -/
def mkRunRecord (r : Run) : RunRecord :=
  { text := r.text
    font_properties := get_font_properties r }

/-- A header or cell paragraph dict (lines 78 to 91 and 151 to 165): trimmed
text, style name, formatting, and the kept runs. -/
def mkSimpleRecord (p : Para) : SimpleParaRecord :=
  { text := pyStrip p.text
    style_name := p.style_name
    formatting := get_paragraph_format p.fmt
    runs := (p.runs.filter keptRun).map mkRunRecord }

/-- The is_list_item classification of line 105: the style name starts with
the literal List (case-sensitive String.startsWith) or the paragraph carries
the numbering attribute. -/
def isListPara (p : Para) : Bool := pyStartsWith p.style_name "List" || p.hasNumbering

/-- The list_level chain of line 106: the ilvl value when every hasattr link
of the chain holds, else none. -/
def listLevel (p : Para) : Option Int :=
  if p.hasNumbering && p.hasNumPr && p.hasIlvl then some p.ilvlVal else none

/-- A body paragraph dict (lines 100 to 107). -/
def mkParaRecord (p : Para) : ParaRecord :=
  { text := pyStrip p.text
    style_name := p.style_name
    formatting := get_paragraph_format p.fmt
    runs := (p.runs.filter keptRun).map mkRunRecord
    is_list_item := isListPara p
    list_level := listLevel p }

/-- The current_list bookkeeping of lines 119 and 120: the stored level is
created from the first item of the group and kept unchanged afterwards (the
level is dead state, never emitted). -/
def curLevel (cur : Option (Option Int)) (lvl : Option Int) : Option Int :=
  match cur with
  | some l => l
  | none => lvl

/-- The body-paragraph loop of lines 94 to 131 of src/app.py, with its two
mutable accumulators (current_list, list_items) and the two output lists
(paragraphs, lists) made explicit.  A paragraph failing the strip guard is
skipped without touching any state; a list item extends list_items; a kept
non-list paragraph first flushes a pending group, then lands in paragraphs;
at the end a nonempty list_items is flushed. -/
def bodyLoop : List Para → Option (Option Int) → List ParaRecord →
    List ParaRecord → List (List ParaRecord) →
    List ParaRecord × List (List ParaRecord)
  | [], _cur, items, paras, lists =>
      (paras, if items.isEmpty then lists else lists ++ [items])
  | p :: rest, cur, items, paras, lists =>
      if keepP p then
        let pc := mkParaRecord p
        if pc.is_list_item then
          bodyLoop rest (some (curLevel cur pc.list_level)) (items ++ [pc]) paras lists
        else
          match cur with
          | some _ => bodyLoop rest none [] (paras ++ [pc]) (lists ++ [items])
          | none => bodyLoop rest none items (paras ++ [pc]) lists
      else
        bodyLoop rest cur items paras lists

/-- Header records contributed by one section (lines 74 to 92). -/
def headerRecs (sec : DocSection) : List SimpleParaRecord :=
  match sec.header with
  | some hps => (hps.filter keepP).map mkSimpleRecord
  | none => []

/-- The header pass over all sections, appending in document order. -/
def extractHeaders (doc : Docx) : List SimpleParaRecord :=
  doc.sections.foldl (fun acc sec => acc ++ headerRecs sec) []

/-- A cell dict (lines 143 to 165): trimmed cell text plus the kept cell
paragraphs.  Note that the cell itself is always appended to its row,
whatever its text. -/
def mkCellRecord (c : Cell) : CellRecord :=
  { text := pyStrip c.text
    paragraphs := (c.paragraphs.filter keepP).map mkSimpleRecord }

/-- A table dict (lines 135 to 168): style name with the Normal fallback and
the full row-major grid of cell records. -/
def mkTableRecord (t : Table) : TableRecord :=
  { style := t.styleName.getD "Normal"
    rows := t.rows.map (fun r => r.cells.map mkCellRecord) }

/-- The retention test of line 170: some cell of some row has truthy
(nonempty) trimmed text. -/
def tableKept (td : TableRecord) : Bool :=
  td.rows.any (fun row => row.any (fun c => c.text != ""))

/-- os.path.basename for the forward-slash separator. -/
def basename (s : String) : String :=
  String.mk ((s.data.reverse.takeWhile (fun c => c != '/')).reverse)

/-- Translation of extract_docx_content (lines 53 to 173 of src/app.py),
taking the already parsed document model alongside the path (the code parses
the path itself; parse failures are raised to the caller and modelled in the
batch driver below). -/
def extract_docx_content (docx_path : String) (doc : Docx) : DocumentContent :=
  { paragraphs := (bodyLoop doc.paragraphs none [] [] []).1
    tables := (doc.tables.map mkTableRecord).filter tableKept
    headers := extractHeaders doc
    document_name := basename docx_path
    lists := (bodyLoop doc.paragraphs none [] [] []).2 }

/-- Index of the last dot in a character list, if any. -/
def lastDotIdx : List Char → Option Nat
  | [] => none
  | c :: rest =>
    match lastDotIdx rest with
    | some i => some (i + 1)
    | none => if c = '.' then some 0 else none

/-- Stem part of os.path.splitext on a bare file name (no path separator):
CPython splits at the last dot only when some character strictly before that
dot is not itself a dot; a name made of leading dots only (such as .docx)
has no extension and is returned whole. -/
def splitextStemL (l : List Char) : List Char :=
  match lastDotIdx l with
  | none => l
  | some i => if (l.take i).any (fun c => c != '.') then l.take i else l

/-- String version of the splitext stem. -/
def splitextStem (s : String) : String := String.mk (splitextStemL s.data)

/-- The filter of line 179: f.lower().endswith of the docx extension. -/
def isDocxName (f : String) : Bool :=
  List.isSuffixOf ".docx".data (f.data.map Char.toLower)

/-- Observable actions of the batch driver: printed messages and file
writes.  A wrote event carries the file name, the encoding string, the
ensure_ascii flag and the indent width passed to json.dump, and the record
serialized. -/
inductive Event where
  | msg : String → Event
  | wrote : String → String → Bool → Nat → DocumentContent → Event
deriving DecidableEq

/-- Environment of one batch run: the directory listing, the outcome of
Document parsing plus extraction per file (error carries str(e)), and the
outcome of opening and dumping the json file (none means success). -/
structure Env where
  files : List String
  extract : String → Except String DocumentContent
  writeErr : String → Option String

/-- The body of the per-file try block (lines 186 to 199 of src/app.py): the
progress message, then either the write and success message, or the two
error messages of the except clause (print with two arguments inserts a
space separator, hence the double space). -/
def perFile (env : Env) (f : String) : List Event :=
  Event.msg ("Processing " ++ f ++ "...") ::
    (match env.extract f with
     | Except.error e =>
         [Event.msg ("Error processing " ++ f ++ ": " ++ e),
          Event.msg ("Full error details:  " ++ e)]
     | Except.ok content =>
         let jsonName := splitextStem f ++ ".json"
         match env.writeErr jsonName with
         | some e =>
             [Event.msg ("Error processing " ++ f ++ ": " ++ e),
              Event.msg ("Full error details:  " ++ e)]
         | none =>
             [Event.wrote jsonName "utf-8" false 4 content,
              Event.msg ("Successfully created " ++ jsonName)])

/-- The matched directory listing of line 179. -/
def matchedFiles (env : Env) : List String := env.files.filter isDocxName

/-- Translation of process_docx_files (lines 175 to 199 of src/app.py). -/
def process_docx_files (env : Env) : List Event :=
  if (matchedFiles env).isEmpty then
    [Event.msg "No .docx files found in the current directory"]
  else
    (matchedFiles env).foldl (fun evs f => evs ++ perFile env f) []

/-- Specification-side definition (for the list-grouping claims): the body
paragraphs that pass the strip guard and are not list items, in order. -/
def nonListRecs (l : List Para) : List ParaRecord :=
  (l.filter (fun p => !(isListPara p))).map mkParaRecord

/-- Helper for termination: dropWhile never lengthens a list. -/
theorem length_dropWhile_le {α : Type} (q : α → Bool) :
    ∀ l : List α, (l.dropWhile q).length ≤ l.length := by
  intro l
  induction l with
  | nil => simp [List.dropWhile]
  | cons a as ih =>
    by_cases h : q a
    · simp [List.dropWhile, h]
      exact Nat.le_succ_of_le ih
    · simp [List.dropWhile, h]

/-- Specification-side definition, following the words of the claim: one
group per maximal run of consecutive list-item paragraphs, built with
takeWhile and dropWhile; non-list paragraphs separate runs and contribute
nothing. -/
def listRunChunks : List Para → List (List ParaRecord)
  | [] => []
  | p :: rest =>
    if isListPara p then
      ((p :: rest.takeWhile isListPara).map mkParaRecord) ::
        listRunChunks (rest.dropWhile isListPara)
    else
      listRunChunks rest
termination_by l => l.length
decreasing_by
  · simp only [List.length_cons]
    exact Nat.lt_succ_of_le (length_dropWhile_le isListPara rest)
  · simp [Nat.lt_succ_self]

/-- Specification-side retention predicate for tables, following the words
of the claim: some cell of some row has nonempty trimmed text. -/
def tKeep (t : Table) : Bool :=
  t.rows.any (fun r => r.cells.any (fun c => pyStrip c.text != ""))

@[simp] theorem mkRunRecord_text (r : Run) : (mkRunRecord r).text = r.text := by
  simp only [mkRunRecord]

@[simp] theorem mkParaRecord_text (p : Para) :
    (mkParaRecord p).text = pyStrip p.text := by
  simp only [mkParaRecord]

@[simp] theorem mkParaRecord_runs (p : Para) :
    (mkParaRecord p).runs = (p.runs.filter keptRun).map mkRunRecord := by
  simp only [mkParaRecord]

@[simp] theorem mkSimpleRecord_text (p : Para) :
    (mkSimpleRecord p).text = pyStrip p.text := by
  simp only [mkSimpleRecord]

@[simp] theorem mkSimpleRecord_runs (p : Para) :
    (mkSimpleRecord p).runs = (p.runs.filter keptRun).map mkRunRecord := by
  simp only [mkSimpleRecord]

@[simp] theorem mkCellRecord_text (c : Cell) :
    (mkCellRecord c).text = pyStrip c.text := by
  simp only [mkCellRecord]

@[simp] theorem mkCellRecord_paragraphs (c : Cell) :
    (mkCellRecord c).paragraphs = (c.paragraphs.filter keepP).map mkSimpleRecord := by
  simp only [mkCellRecord]

@[simp] theorem mkParaRecord_is_list_item (p : Para) :
    (mkParaRecord p).is_list_item = isListPara p := by
  simp only [mkParaRecord]

@[simp] theorem mkParaRecord_list_level (p : Para) :
    (mkParaRecord p).list_level = listLevel p := by
  simp only [mkParaRecord]

theorem bodyLoop_nil (cur : Option (Option Int)) (items paras lists) :
    bodyLoop [] cur items paras lists =
      (paras, if items.isEmpty then lists else lists ++ [items]) := rfl

theorem bodyLoop_cons (p : Para) (rest cur items paras lists) :
    bodyLoop (p :: rest) cur items paras lists =
      if keepP p then
        let pc := mkParaRecord p
        if pc.is_list_item then
          bodyLoop rest (some (curLevel cur pc.list_level)) (items ++ [pc]) paras lists
        else
          match cur with
          | some _ => bodyLoop rest none [] (paras ++ [pc]) (lists ++ [items])
          | none => bodyLoop rest none items (paras ++ [pc]) lists
      else
        bodyLoop rest cur items paras lists := rfl

theorem bodyLoop_cons_skip {p : Para} {rest cur items paras lists}
    (h : keepP p = false) :
    bodyLoop (p :: rest) cur items paras lists =
      bodyLoop rest cur items paras lists := by
  rw [bodyLoop_cons]
  simp [h]

theorem bodyLoop_cons_list {p : Para} {rest cur items paras lists}
    (h : keepP p = true) (hl : isListPara p = true) :
    bodyLoop (p :: rest) cur items paras lists =
      bodyLoop rest (some (curLevel cur (listLevel p)))
        (items ++ [mkParaRecord p]) paras lists := by
  rw [bodyLoop_cons]
  simp [h, hl]

theorem bodyLoop_cons_flush {p : Para} {rest items paras lists} (l0 : Option Int)
    (h : keepP p = true) (hl : isListPara p = false) :
    bodyLoop (p :: rest) (some l0) items paras lists =
      bodyLoop rest none [] (paras ++ [mkParaRecord p]) (lists ++ [items]) := by
  rw [bodyLoop_cons]
  simp [h, hl]

theorem bodyLoop_cons_plain {p : Para} {rest items paras lists}
    (h : keepP p = true) (hl : isListPara p = false) :
    bodyLoop (p :: rest) none items paras lists =
      bodyLoop rest none items (paras ++ [mkParaRecord p]) lists := by
  rw [bodyLoop_cons]
  simp [h, hl]

/-- Paragraphs failing the strip guard are invisible to the body loop. -/
theorem bodyLoop_eq_filter :
    ∀ (ps : List Para) (cur : Option (Option Int)) items paras lists,
      bodyLoop ps cur items paras lists =
        bodyLoop (ps.filter keepP) cur items paras lists := by
  intro ps
  induction ps with
  | nil => intro cur items paras lists; rfl
  | cons p rest ih =>
    intro cur items paras lists
    cases hk : keepP p with
    | false =>
      rw [List.filter_cons_of_neg (by simp [hk]), bodyLoop_cons_skip hk]
      exact ih cur items paras lists
    | true =>
      rw [List.filter_cons_of_pos hk]
      cases hl : isListPara p with
      | true =>
        rw [bodyLoop_cons_list hk hl, bodyLoop_cons_list hk hl]
        exact ih _ _ _ _
      | false =>
        cases cur with
        | some l0 =>
          rw [bodyLoop_cons_flush l0 hk hl, bodyLoop_cons_flush l0 hk hl]
          exact ih _ _ _ _
        | none =>
          rw [bodyLoop_cons_plain hk hl, bodyLoop_cons_plain hk hl]
          exact ih _ _ _ _

theorem listRunChunks_nil : listRunChunks [] = [] := by
  rw [listRunChunks.eq_def]

theorem listRunChunks_cons_list {p : Para} {rest} (h : isListPara p = true) :
    listRunChunks (p :: rest) =
      ((p :: rest.takeWhile isListPara).map mkParaRecord) ::
        listRunChunks (rest.dropWhile isListPara) := by
  conv_lhs => rw [listRunChunks.eq_def]
  simp [h]

theorem listRunChunks_cons_nonlist {p : Para} {rest} (h : isListPara p = false) :
    listRunChunks (p :: rest) = listRunChunks rest := by
  conv_lhs => rw [listRunChunks.eq_def]
  simp [h]

theorem nonListRecs_nil : nonListRecs [] = [] := rfl

theorem nonListRecs_cons_list {p : Para} {rest} (h : isListPara p = true) :
    nonListRecs (p :: rest) = nonListRecs rest := by
  simp [nonListRecs, h]

theorem nonListRecs_cons_nonlist {p : Para} {rest} (h : isListPara p = false) :
    nonListRecs (p :: rest) = mkParaRecord p :: nonListRecs rest := by
  simp [nonListRecs, h]

/-- Full characterization of the body loop on a list of paragraphs that all
pass the strip guard.  First component: from idle state (no open group), the
final paragraphs are the accumulated ones plus the non-list records in order
and the final groups are the accumulated ones plus one chunk per maximal
list run.  Second component: with an open group holding a nonempty
list_items, the leading list run extends that group. -/
theorem bodyLoop_spec :
    ∀ l : List Para, (∀ p ∈ l, keepP p = true) →
      (∀ paras lists, bodyLoop l none [] paras lists =
        (paras ++ nonListRecs l, lists ++ listRunChunks l)) ∧
      (∀ (lvl : Option Int) items paras lists, items ≠ [] →
        bodyLoop l (some lvl) items paras lists =
          (paras ++ nonListRecs l,
           lists ++ (items ++ (l.takeWhile isListPara).map mkParaRecord) ::
             listRunChunks (l.dropWhile isListPara))) := by
  intro l
  induction l with
  | nil =>
    intro _
    refine ⟨fun paras lists => ?_, fun lvl items paras lists hne => ?_⟩
    · simp [bodyLoop, nonListRecs_nil, listRunChunks_nil]
    · have hne2 : items.isEmpty = false := by
        cases items with
        | nil => exact absurd rfl hne
        | cons a as => rfl
      simp [bodyLoop, hne2, nonListRecs_nil, listRunChunks_nil]
  | cons p rest ih =>
    intro hk
    have hkp : keepP p = true := hk p (List.mem_cons_self p rest)
    have hkrest : ∀ q ∈ rest, keepP q = true :=
      fun q hq => hk q (List.mem_cons_of_mem p hq)
    obtain ⟨ih1, ih2⟩ := ih hkrest
    refine ⟨fun paras lists => ?_, fun lvl items paras lists hne => ?_⟩
    · cases hl : isListPara p with
      | true =>
        rw [bodyLoop_cons_list hkp hl]
        simp only [List.nil_append]
        rw [ih2 (curLevel none (listLevel p)) [mkParaRecord p] paras lists (by simp)]
        rw [nonListRecs_cons_list hl, listRunChunks_cons_list hl]
        simp
      | false =>
        rw [bodyLoop_cons_plain hkp hl, ih1 (paras ++ [mkParaRecord p]) lists]
        rw [nonListRecs_cons_nonlist hl, listRunChunks_cons_nonlist hl]
        simp
    · cases hl : isListPara p with
      | true =>
        rw [bodyLoop_cons_list hkp hl,
          ih2 (curLevel (some lvl) (listLevel p)) (items ++ [mkParaRecord p])
            paras lists (by simp)]
        rw [nonListRecs_cons_list hl,
          List.takeWhile_cons_of_pos hl, List.dropWhile_cons_of_pos hl]
        simp
      | false =>
        rw [bodyLoop_cons_flush lvl hkp hl,
          ih1 (paras ++ [mkParaRecord p]) (lists ++ [items])]
        rw [nonListRecs_cons_nonlist hl,
          List.takeWhile_cons_of_neg (by simp [hl]),
          List.dropWhile_cons_of_neg (by simp [hl]),
          listRunChunks_cons_nonlist hl]
        simp

/-- Splitting a list at the end of its initial run: the initial run plus the
matching elements of the remainder are exactly the matching elements. -/
theorem takeWhile_append_filter_dropWhile {α : Type} (q : α → Bool) :
    ∀ l : List α, l.takeWhile q ++ (l.dropWhile q).filter q = l.filter q := by
  intro l
  induction l with
  | nil => rfl
  | cons a as ih =>
    by_cases h : q a
    · rw [List.takeWhile_cons_of_pos h, List.dropWhile_cons_of_pos h,
        List.filter_cons_of_pos h, List.cons_append, ih]
    · rw [List.takeWhile_cons_of_neg h, List.dropWhile_cons_of_neg h,
        List.filter_cons_of_neg (by simpa using h), List.nil_append]

/-- Flattening the chunk list recovers exactly the list-item records in
order: each paragraph lands in at most one chunk. -/
theorem listRunChunks_flatten :
    ∀ l : List Para,
      (listRunChunks l).flatten = (l.filter isListPara).map mkParaRecord
  | [] => by
    rw [listRunChunks_nil]
    rfl
  | p :: rest => by
    cases hl : isListPara p with
    | true =>
      rw [listRunChunks_cons_list hl, List.flatten_cons,
        listRunChunks_flatten (rest.dropWhile isListPara),
        List.filter_cons_of_pos hl]
      rw [← takeWhile_append_filter_dropWhile isListPara rest]
      simp
    | false =>
      rw [listRunChunks_cons_nonlist hl, listRunChunks_flatten rest,
        List.filter_cons_of_neg (by simp [hl])]
termination_by l => l.length
decreasing_by
  all_goals simp only [List.length_cons]
  all_goals first
    | exact Nat.lt_succ_of_le (length_dropWhile_le isListPara rest)
    | exact Nat.lt_succ_self _

/-- Every element of the strip-filtered paragraph list passes the guard. -/
theorem keepP_of_mem_filter {p : Para} {l : List Para}
    (h : p ∈ l.filter keepP) : keepP p = true :=
  (List.mem_filter.mp h).2

/-- The paragraphs field of the extractor output, in closed form: the kept
non-list body paragraphs in document order. -/
theorem extract_paragraphs_eq (path : String) (doc : Docx) :
    (extract_docx_content path doc).paragraphs =
      nonListRecs (doc.paragraphs.filter keepP) := by
  show (bodyLoop doc.paragraphs none [] [] []).1 = _
  rw [bodyLoop_eq_filter]
  rw [(bodyLoop_spec (doc.paragraphs.filter keepP)
    (fun p hp => keepP_of_mem_filter hp)).1 [] []]
  simp

/-- The lists field of the extractor output, in closed form: one group per
maximal run of consecutive list items among the kept body paragraphs. -/
theorem extract_lists_eq (path : String) (doc : Docx) :
    (extract_docx_content path doc).lists =
      listRunChunks (doc.paragraphs.filter keepP) := by
  show (bodyLoop doc.paragraphs none [] [] []).2 = _
  rw [bodyLoop_eq_filter]
  rw [(bodyLoop_spec (doc.paragraphs.filter keepP)
    (fun p hp => keepP_of_mem_filter hp)).1 [] []]
  simp

/-- The code-side retention test agrees with the specification-side one on
every table record the code builds. -/
theorem tableKept_mkTableRecord (t : Table) :
    tableKept (mkTableRecord t) = tKeep t := by
  simp only [tableKept, mkTableRecord, tKeep]
  induction t.rows with
  | nil => rfl
  | cons r rs ih =>
    simp only [List.map_cons, List.any_cons, ih]
    congr 1
    induction r.cells with
    | nil => rfl
    | cons c cs ih2 =>
      simp only [List.map_cons, List.any_cons, ih2, mkCellRecord_text]

/-- The tables field of the extractor output, in closed form: exactly the
tables with some nonempty trimmed cell text survive, in order, with no
placeholder for the dropped ones. -/
theorem extract_tables_eq (path : String) (doc : Docx) :
    (extract_docx_content path doc).tables =
      (doc.tables.filter tKeep).map mkTableRecord := by
  show (doc.tables.map mkTableRecord).filter tableKept = _
  rw [List.filter_map]
  congr 1
  apply List.filter_congr
  intro t _
  simp [Function.comp, tableKept_mkTableRecord]

/-- Folding with append equals flatMap onto the accumulator. -/
theorem foldl_append_flatMap {α β : Type} (g : α → List β) :
    ∀ (l : List α) (acc : List β),
      l.foldl (fun a x => a ++ g x) acc = acc ++ l.flatMap g := by
  intro l
  induction l with
  | nil => intro acc; simp
  | cons a as ih =>
    intro acc
    rw [List.foldl_cons, ih, List.flatMap_cons, List.append_assoc]

/-- The headers field of the extractor output, in closed form. -/
theorem extract_headers_eq (path : String) (doc : Docx) :
    (extract_docx_content path doc).headers = doc.sections.flatMap headerRecs := by
  show doc.sections.foldl (fun acc sec => acc ++ headerRecs sec) [] = _
  rw [foldl_append_flatMap]
  rfl

/-- The batch loop in closed form when some file matched: the output events
are the per-file blocks of every matched file, concatenated in listing
order (no file terminates the loop). -/
theorem process_eq {env : Env} (h : (matchedFiles env).isEmpty = false) :
    process_docx_files env = (matchedFiles env).flatMap (perFile env) := by
  rw [process_docx_files, if_neg (by simp [h])]
  rw [foldl_append_flatMap]
  rfl

/-- A dot-free list has no last dot. -/
theorem lastDotIdx_of_noDot :
    ∀ l : List Char, (∀ c ∈ l, c ≠ '.') → lastDotIdx l = none := by
  intro l
  induction l with
  | nil => intro _; rfl
  | cons c rest ih =>
    intro h
    have hr := ih (fun x hx => h x (List.mem_cons_of_mem c hx))
    have hc : ¬(c = '.') := h c (List.mem_cons_self c rest)
    simp [lastDotIdx, hr, hc]

/-- With a dot-free tail after an explicit dot, the last dot sits exactly at
the end of the stem. -/
theorem lastDotIdx_append (sd e : List Char) (he : ∀ c ∈ e, c ≠ '.') :
    lastDotIdx (sd ++ '.' :: e) = some sd.length := by
  induction sd with
  | nil => simp [lastDotIdx, lastDotIdx_of_noDot e he]
  | cons c s ih => simp [lastDotIdx, ih]

/-- splitext drops a dot-free extension exactly when the stem holds some
character other than a dot. -/
theorem splitextStemL_append (sd e : List Char) (he : ∀ c ∈ e, c ≠ '.')
    (hs : ∃ c ∈ sd, c ≠ '.') :
    splitextStemL (sd ++ '.' :: e) = sd := by
  have htake : List.take sd.length (sd ++ '.' :: e) = sd := List.take_left' rfl
  have hany : sd.any (fun c => c != '.') = true := by
    obtain ⟨c, hc, hne⟩ := hs
    exact List.any_eq_true.mpr ⟨c, hc, by simp [hne]⟩
  simp only [splitextStemL, lastDotIdx_append sd e he, htake]
  simp [hany]

/-- splitext keeps a name whole when every character before the last dot is
itself a dot (the CPython leading-dot rule for hidden files). -/
theorem splitextStemL_allDots (sd e : List Char) (he : ∀ c ∈ e, c ≠ '.')
    (hs : ∀ c ∈ sd, c = '.') :
    splitextStemL (sd ++ '.' :: e) = sd ++ '.' :: e := by
  have hany : (sd ++ '.' :: e).take sd.length = sd := List.take_left' rfl
  simp only [splitextStemL, lastDotIdx_append sd e he, hany]
  have : sd.any (fun c => c != '.') = false := by
    rw [List.any_eq_false]
    intro c hc
    simp [hs c hc]
  simp [this]

/-- A kept paragraph has nonempty trimmed text. -/
theorem text_ne_of_keep {p : Para} (h : keepP p = true) : pyStrip p.text ≠ "" := by
  simpa [keepP] using h

/-- Every run record built from the filtered run list keeps text with
non-whitespace content. -/
theorem run_text_ne {rs : List Run} {rr : RunRecord}
    (h : rr ∈ (rs.filter keptRun).map mkRunRecord) : pyStrip rr.text ≠ "" := by
  obtain ⟨r, hr, rfl⟩ := List.mem_map.mp h
  have hk := (List.mem_filter.mp hr).2
  rw [mkRunRecord_text]
  simpa [keptRun] using hk

/-- A body paragraph record built from a kept paragraph has nonempty text
and only runs with non-whitespace content. -/
theorem para_record_ok {p : Para} (h : keepP p = true) :
    (mkParaRecord p).text ≠ "" ∧
      ∀ rr ∈ (mkParaRecord p).runs, pyStrip rr.text ≠ "" := by
  refine ⟨?_, ?_⟩
  · rw [mkParaRecord_text]
    exact text_ne_of_keep h
  · intro rr hrr
    rw [mkParaRecord_runs] at hrr
    exact run_text_ne hrr

/-- A header or cell paragraph record built from a kept paragraph has
nonempty text and only runs with non-whitespace content. -/
theorem simple_record_ok {p : Para} (h : keepP p = true) :
    (mkSimpleRecord p).text ≠ "" ∧
      ∀ rr ∈ (mkSimpleRecord p).runs, pyStrip rr.text ≠ "" := by
  refine ⟨?_, ?_⟩
  · rw [mkSimpleRecord_text]
    exact text_ne_of_keep h
  · intro rr hrr
    rw [mkSimpleRecord_runs] at hrr
    exact run_text_ne hrr

/-- The progress message always opens a per-file block. -/
theorem processing_msg_mem (env : Env) (g : String) :
    Event.msg ("Processing " ++ g ++ "...") ∈ perFile env g :=
  List.mem_cons_self _ _

/-- The spec-side table test unfolded to an existential. -/
theorem tKeep_iff (t : Table) :
    tKeep t = true ↔ ∃ r ∈ t.rows, ∃ c ∈ r.cells, pyStrip c.text ≠ "" := by
  simp [tKeep, List.any_eq_true]

/-- An all-none paragraph format object. -/
def fmt0 : PFmt :=
  { alignment := none, first_line_indent := none, left_indent := none,
    right_indent := none, line_spacing := none, space_before := none,
    space_after := none, keep_together := none, keep_with_next := none,
    page_break_before := none, widow_control := none }

/-- A font with no attributes set and a working color object. -/
def font0 : Font :=
  { hasSize := false, size := none, name := none, all_caps := none,
    hasHighlight := false, highlight_color := none, subscript := none,
    superscript := none, hasColorAttr := true, color := none,
    colorRaises := false }

/-- A font whose color object raises on access. -/
def fontRaise : Font := { font0 with colorRaises := true }

/-- A plain run with the given text. -/
def mkRun0 (t : String) : Run :=
  { text := t, bold := none, italic := none, underline := none, font := font0 }

/-- A bold run whose color access raises. -/
def runRaise : Run :=
  { text := "boom", bold := some true, italic := none, underline := none,
    font := fontRaise }

/-- A run with untrimmed text, for the verbatim-run-text claim. -/
def runY : Run := mkRun0 "  hello  "

/-- A body paragraph with the given text and style and no runs. -/
def mkBodyPara (t s : String) : Para :=
  { text := t, style_name := s, fmt := fmt0, runs := [], hasNumbering := false,
    hasNumPr := false, hasIlvl := false, ilvlVal := 0 }

/-- First list-styled paragraph. -/
def pListA : Para := mkBodyPara "a" "List Bullet"

/-- Second list-styled paragraph. -/
def pListB : Para := mkBodyPara "b" "List Bullet"

/-- A whitespace-only paragraph with a non-list style. -/
def pWhite : Para := mkBodyPara "   " "Normal"

/-- A non-list paragraph with real text. -/
def pPlainX : Para := mkBodyPara "x" "Normal"

/-- A paragraph whose style starts with lowercase list. -/
def pLower : Para := mkBodyPara "c" "list items"

/-- A paragraph carrying one untrimmed run. -/
def pRuns : Para := { mkBodyPara "hello" "Normal" with runs := [runY] }

/-- Document: list run, whitespace-only non-list paragraph, list run. -/
def doc1 : Docx := { sections := [], paragraphs := [pListA, pWhite, pListB], tables := [] }

/-- Document: list run, kept non-list paragraph, list run. -/
def doc2 : Docx := { sections := [], paragraphs := [pListA, pPlainX, pListB], tables := [] }

/-- A nonempty cell. -/
def cellX : Cell := { text := "x", paragraphs := [mkBodyPara "x" "Normal"] }

/-- A whitespace-only cell. -/
def cellW : Cell := { text := "  ", paragraphs := [] }

/-- A table with one nonempty and one whitespace-only cell in one row. -/
def tab1 : Table := { styleName := some "TableGrid", rows := [{ cells := [cellX, cellW] }] }

/-- Document holding only the mixed table. -/
def docT : Docx := { sections := [], paragraphs := [], tables := [tab1] }

/-- Document holding one plain paragraph. -/
def docW : Docx := { sections := [], paragraphs := [pPlainX], tables := [] }

/-- The record serialized in the batch samples. -/
def c0 : DocumentContent :=
  { paragraphs := [], tables := [], headers := [], document_name := "", lists := [] }

/-- A format object with present zero values: alignment LEFT (enum value 0)
and an explicit zero left indent. -/
def fmtZ : PFmt := { fmt0 with alignment := some 0, left_indent := some 0 }

/-- A format object with present nonzero values. -/
def fmtW : PFmt := { fmt0 with alignment := some 1, left_indent := some 36 }

/-- The truthy-stringify idiom renders null exactly for an absent value or a
present zero. -/
theorem strIfTruthy_eq_none_iff (v : Option Int) :
    strIfTruthy v = none ↔ v = none ∨ v = some 0 := by
  cases v with
  | none => simp [strIfTruthy]
  | some n =>
    by_cases h : n = 0 <;> simp [strIfTruthy, h]

/-- The truthy-stringify idiom renders a present nonzero value as its string
form. -/
theorem strIfTruthy_eq_some (n : Int) (h : n ≠ 0) (v : Option Int)
    (hv : v = some n) : strIfTruthy v = some (toString n) := by
  subst hv
  simp [strIfTruthy, h]

/-- C3: a table appears in the output tables list iff some cell of some row
has non-empty trimmed text; in closed form the output is exactly the map of
the retained tables, in order, so an all-empty table leaves no placeholder. -/
theorem C3_table_retention (path : String) (doc : Docx) :
    (extract_docx_content path doc).tables = (doc.tables.filter tKeep).map mkTableRecord ∧
    ∀ t ∈ doc.tables,
      (mkTableRecord t ∈ (extract_docx_content path doc).tables ↔
        ∃ r ∈ t.rows, ∃ c ∈ r.cells, pyStrip c.text ≠ "") := by
  refine ⟨extract_tables_eq path doc, fun t ht => ?_⟩
  rw [extract_tables_eq path doc, ← tKeep_iff t]
  constructor
  · intro hmem
    obtain ⟨t2, ht2, heq⟩ := List.mem_map.mp hmem
    have hk2 := (List.mem_filter.mp ht2).2
    have : tableKept (mkTableRecord t2) = tableKept (mkTableRecord t) := by rw [heq]
    rw [tableKept_mkTableRecord, tableKept_mkTableRecord] at this
    rw [← this]
    exact hk2
  · intro hk
    exact List.mem_map_of_mem _ (List.mem_filter.mpr ⟨ht, hk⟩)

/-- C3 witness: the mixed table of the sample document is retained because
its first cell has non-empty trimmed text. -/
theorem C3_table_retention_witness :
    mkTableRecord tab1 ∈ (extract_docx_content "t.docx" docT).tables :=
  ((C3_table_retention "t.docx" docT).2 tab1 (by decide)).mpr
    ⟨{ cells := [cellX, cellW] }, by decide, cellX, by decide, by decide⟩

/-- C5: a body paragraph is classified as a list item exactly when its style
name starts with the case-sensitive prefix List or the model flags it as
numbered. -/
theorem C5_list_classification (p : Para) :
    (mkParaRecord p).is_list_item = true ↔
      (pyStartsWith p.style_name "List" = true ∨ p.hasNumbering = true) := by
  rw [mkParaRecord_is_list_item, isListPara]
  simp

/-- C5 witness: the List Bullet style is classified as a list item, and the
prefix test is case-sensitive — a lowercase list style is not. -/
theorem C5_list_classification_witness :
    (mkParaRecord pListA).is_list_item = true ∧
      (mkParaRecord pLower).is_list_item = false :=
  ⟨(C5_list_classification pListA).mpr (Or.inl (by decide)), by decide⟩

/-- C9: each kept body paragraph lands exactly once — the paragraphs field
is exactly the kept non-list paragraphs in document order, and the
concatenation of all list groups is exactly the kept list paragraphs in
document order, so no paragraph is duplicated or shared between the two
fields. -/
theorem C9_exactly_once (path : String) (doc : Docx) :
    (extract_docx_content path doc).paragraphs =
      ((doc.paragraphs.filter keepP).filter (fun p => !(isListPara p))).map mkParaRecord ∧
    (extract_docx_content path doc).lists.flatten =
      ((doc.paragraphs.filter keepP).filter isListPara).map mkParaRecord := by
  constructor
  · rw [extract_paragraphs_eq]
    simp only [nonListRecs]
  · rw [extract_lists_eq, listRunChunks_flatten]

/-- C2 counterexample: grouping is not a pure function of the is-list-item
classification of the paragraph sequence, and a single non-list paragraph
between two list runs does not always yield two groups.  doc1 and doc2 carry
the same classification sequence (list, non-list, list), yet the
whitespace-only middle paragraph of doc1 is skipped entirely, producing one
merged group, while doc2 produces two. -/
theorem C2_counterexample :
    isListPara pListA = true ∧ isListPara pWhite = false ∧
    isListPara pListB = true ∧ isListPara pPlainX = false ∧
    (extract_docx_content "d.docx" doc1).lists.length = 1 ∧
    (extract_docx_content "d.docx" doc2).lists.length = 2 := by
  decide

/-- C2 amended: list grouping is purely positional over the body paragraphs
with non-whitespace text: within that subsequence, each maximal run of
consecutive list-item paragraphs yields exactly one group (the listRunChunks
of the kept subsequence), and only a kept non-list paragraph or the end of
the document closes a group; whitespace-only paragraphs are skipped and do
not close groups. -/
theorem C2_list_grouping (path : String) (doc : Docx) :
    (extract_docx_content path doc).lists =
      listRunChunks (doc.paragraphs.filter keepP) :=
  extract_lists_eq path doc

/-- C1 counterexample: a CellRecord with only-whitespace text can appear in
the output.  Cells are never filtered individually — each cell is appended
to its row — so in a table retained because a sibling cell has text, the
whitespace-only cell shows up with empty trimmed text. -/
theorem C1_counterexample :
    pyStrip cellW.text = "" ∧
    ((extract_docx_content "t.docx" docT).tables.any
      (fun tr => tr.rows.any (fun row => row.any (fun cr => cr.text == "")))) = true := by
  decide

/-- C1 amended: every ParagraphRecord in the output (body, header, cell
paragraph, or inside a list group) has non-whitespace text, and every
RunRecord kept anywhere has non-whitespace text; CellRecords, however, are
not individually filtered — a whitespace-only cell appears (with empty
trimmed text) whenever its table is retained, and only wholly empty tables
are dropped. -/
theorem C1_whitespace_exclusion (path : String) (doc : Docx) :
    (∀ pr ∈ (extract_docx_content path doc).paragraphs,
        pr.text ≠ "" ∧ ∀ rr ∈ pr.runs, pyStrip rr.text ≠ "") ∧
    (∀ g ∈ (extract_docx_content path doc).lists, ∀ pr ∈ g,
        pr.text ≠ "" ∧ ∀ rr ∈ pr.runs, pyStrip rr.text ≠ "") ∧
    (∀ hr ∈ (extract_docx_content path doc).headers,
        hr.text ≠ "" ∧ ∀ rr ∈ hr.runs, pyStrip rr.text ≠ "") ∧
    (∀ tr ∈ (extract_docx_content path doc).tables, ∀ row ∈ tr.rows,
        ∀ cr ∈ row, ∀ pr ∈ cr.paragraphs,
          pr.text ≠ "" ∧ ∀ rr ∈ pr.runs, pyStrip rr.text ≠ "") := by
  refine ⟨?_, ?_, ?_, ?_⟩
  · intro pr hpr
    rw [extract_paragraphs_eq] at hpr
    simp only [nonListRecs] at hpr
    obtain ⟨p, hp, rfl⟩ := List.mem_map.mp hpr
    exact para_record_ok (keepP_of_mem_filter (List.mem_of_mem_filter hp))
  · intro g hg pr hpr
    have hmem : pr ∈ (extract_docx_content path doc).lists.flatten :=
      List.mem_flatten_of_mem hg hpr
    rw [extract_lists_eq, listRunChunks_flatten] at hmem
    obtain ⟨p, hp, rfl⟩ := List.mem_map.mp hmem
    exact para_record_ok (keepP_of_mem_filter (List.mem_of_mem_filter hp))
  · intro hr hhr
    rw [extract_headers_eq] at hhr
    obtain ⟨sec, _, hin⟩ := List.mem_flatMap.mp hhr
    cases hsec : sec.header with
    | none => rw [headerRecs, hsec] at hin; cases hin
    | some hps =>
      rw [headerRecs, hsec] at hin
      obtain ⟨p, hp, rfl⟩ := List.mem_map.mp hin
      exact simple_record_ok (keepP_of_mem_filter hp)
  · intro tr htr row hrow cr hcr pr hpr
    rw [extract_tables_eq] at htr
    obtain ⟨t, _, rfl⟩ := List.mem_map.mp htr
    have hrows : row ∈ t.rows.map (fun r => r.cells.map mkCellRecord) := by
      simpa [mkTableRecord] using hrow
    obtain ⟨r, _, rfl⟩ := List.mem_map.mp hrows
    obtain ⟨c, _, rfl⟩ := List.mem_map.mp hcr
    rw [mkCellRecord_paragraphs] at hpr
    obtain ⟨p, hp, rfl⟩ := List.mem_map.mp hpr
    exact simple_record_ok (keepP_of_mem_filter hp)

/-- C1 witness: the kept plain paragraph of the sample document has
non-whitespace text in the output. -/
theorem C1_whitespace_exclusion_witness : (mkParaRecord pPlainX).text ≠ "" :=
  ((C1_whitespace_exclusion "w.docx" docW).1 (mkParaRecord pPlainX) (by decide)).1

/-- C4: when the color object raises during color resolution, extraction
still returns the complete FontProperties record — every other field is
read exactly as usual — and color is recorded as null; the exception never
escapes (the embedded function is total, with the except branch folded into
colorValue). -/
theorem C4_color_safety (r : Run) (h : r.font.colorRaises = true) :
    get_font_properties r =
      { bold := r.bold, italic := r.italic, underline := r.underline,
        font_size := if r.font.hasSize then strIfTruthy r.font.size else none,
        font_name := r.font.name, all_caps := r.font.all_caps,
        color := none,
        highlight_color :=
          if r.font.hasHighlight then some (pyStrOpt r.font.highlight_color) else none,
        subscript := r.font.subscript, superscript := r.font.superscript } := by
  rw [get_font_properties, colorValue, if_pos h]

/-- C4 witness: the raising sample run yields color null while the other
attributes survive. -/
theorem C4_color_safety_witness :
    (get_font_properties runRaise).color = none ∧
      (get_font_properties runRaise).bold = some true := by
  rw [C4_color_safety runRaise (by decide)]
  exact ⟨rfl, by decide⟩

/-- C6 counterexample: a present zero value is rendered null, not as its
string form.  Python truthiness conflates a zero alignment enum (LEFT) or a
zero-length indent with an absent value, so fmtZ with alignment LEFT (0) and
a zero left indent yields null for both present fields. -/
theorem C6_counterexample :
    fmtZ.alignment = some 0 ∧ (get_paragraph_format fmtZ).alignment = none ∧
    fmtZ.left_indent = some 0 ∧ (get_paragraph_format fmtZ).left_indent = none := by
  decide

/-- C6 amended: each numeric or enum field of get_paragraph_format is the
string form of the underlying value when that value is present and nonzero
(truthy), and null when it is absent or present with value zero; the four
boolean layout flags are passed through unchanged. -/
theorem C6_format_rendering (fmt : PFmt) :
    ((get_paragraph_format fmt).alignment = none ↔
        fmt.alignment = none ∨ fmt.alignment = some 0) ∧
    (∀ n : Int, n ≠ 0 → fmt.alignment = some n →
        (get_paragraph_format fmt).alignment = some (toString n)) ∧
    ((get_paragraph_format fmt).first_line_indent = none ↔
        fmt.first_line_indent = none ∨ fmt.first_line_indent = some 0) ∧
    (∀ n : Int, n ≠ 0 → fmt.first_line_indent = some n →
        (get_paragraph_format fmt).first_line_indent = some (toString n)) ∧
    ((get_paragraph_format fmt).left_indent = none ↔
        fmt.left_indent = none ∨ fmt.left_indent = some 0) ∧
    (∀ n : Int, n ≠ 0 → fmt.left_indent = some n →
        (get_paragraph_format fmt).left_indent = some (toString n)) ∧
    ((get_paragraph_format fmt).right_indent = none ↔
        fmt.right_indent = none ∨ fmt.right_indent = some 0) ∧
    (∀ n : Int, n ≠ 0 → fmt.right_indent = some n →
        (get_paragraph_format fmt).right_indent = some (toString n)) ∧
    ((get_paragraph_format fmt).line_spacing = none ↔
        fmt.line_spacing = none ∨ fmt.line_spacing = some 0) ∧
    (∀ n : Int, n ≠ 0 → fmt.line_spacing = some n →
        (get_paragraph_format fmt).line_spacing = some (toString n)) ∧
    ((get_paragraph_format fmt).space_before = none ↔
        fmt.space_before = none ∨ fmt.space_before = some 0) ∧
    (∀ n : Int, n ≠ 0 → fmt.space_before = some n →
        (get_paragraph_format fmt).space_before = some (toString n)) ∧
    ((get_paragraph_format fmt).space_after = none ↔
        fmt.space_after = none ∨ fmt.space_after = some 0) ∧
    (∀ n : Int, n ≠ 0 → fmt.space_after = some n →
        (get_paragraph_format fmt).space_after = some (toString n)) ∧
    (get_paragraph_format fmt).keep_together = fmt.keep_together ∧
    (get_paragraph_format fmt).keep_with_next = fmt.keep_with_next ∧
    (get_paragraph_format fmt).page_break_before = fmt.page_break_before ∧
    (get_paragraph_format fmt).widow_control = fmt.widow_control := by
  simp only [get_paragraph_format]
  refine ⟨strIfTruthy_eq_none_iff _,
    fun n hn hv => strIfTruthy_eq_some n hn _ hv,
    strIfTruthy_eq_none_iff _,
    fun n hn hv => strIfTruthy_eq_some n hn _ hv,
    strIfTruthy_eq_none_iff _,
    fun n hn hv => strIfTruthy_eq_some n hn _ hv,
    strIfTruthy_eq_none_iff _,
    fun n hn hv => strIfTruthy_eq_some n hn _ hv,
    strIfTruthy_eq_none_iff _,
    fun n hn hv => strIfTruthy_eq_some n hn _ hv,
    strIfTruthy_eq_none_iff _,
    fun n hn hv => strIfTruthy_eq_some n hn _ hv,
    strIfTruthy_eq_none_iff _,
    fun n hn hv => strIfTruthy_eq_some n hn _ hv,
    trivial, trivial, trivial, trivial⟩

/-- C6 witness: a present nonzero alignment is rendered as its string form. -/
theorem C6_format_rendering_witness :
    (get_paragraph_format fmtW).alignment = some (toString (1 : Int)) :=
  (C6_format_rendering fmtW).2.1 1 (by decide) (by decide)

/-- C10: a kept run keeps its text verbatim and untrimmed in the RunRecord,
while the enclosing paragraph record carries the trimmed paragraph text. -/
theorem C10_run_text_verbatim (p : Para) (r : Run)
    (hr : r ∈ p.runs) (hkeep : keptRun r = true) :
    mkRunRecord r ∈ (mkParaRecord p).runs ∧
    (mkRunRecord r).text = r.text ∧
    (mkParaRecord p).text = pyStrip p.text := by
  refine ⟨?_, mkRunRecord_text r, mkParaRecord_text p⟩
  rw [mkParaRecord_runs]
  exact List.mem_map_of_mem _ (List.mem_filter.mpr ⟨hr, hkeep⟩)

/-- C10 witness: the sample run with surrounding whitespace survives with
its text untrimmed while the paragraph text is trimmed. -/
theorem C10_run_text_verbatim_witness :
    mkRunRecord runY ∈ (mkParaRecord pRuns).runs ∧
      (mkRunRecord runY).text = "  hello  " :=
  ⟨(C10_run_text_verbatim pRuns runY (by decide) (by decide)).1,
   (C10_run_text_verbatim pRuns runY (by decide) (by decide)).2.1⟩

/-- A failing extraction contributes both error messages to its block. -/
theorem error_msgs_mem (env : Env) (f e : String)
    (he : env.extract f = Except.error e) :
    Event.msg ("Error processing " ++ f ++ ": " ++ e) ∈ perFile env f ∧
    Event.msg ("Full error details:  " ++ e) ∈ perFile env f := by
  simp [perFile, he]

/-- A failing write (open or json.dump raising after a successful
extraction) contributes the same two error messages to its block. -/
theorem write_error_msgs_mem (env : Env) (f e : String) (c : DocumentContent)
    (hok : env.extract f = Except.ok c)
    (hw : env.writeErr (splitextStem f ++ ".json") = some e) :
    Event.msg ("Error processing " ++ f ++ ": " ++ e) ∈ perFile env f ∧
    Event.msg ("Full error details:  " ++ e) ∈ perFile env f := by
  simp [perFile, hok, hw]

/-- A nonempty membership gives a non-isEmpty matched list. -/
theorem matched_ne_empty {env : Env} {f : String} (hf : f ∈ matchedFiles env) :
    (matchedFiles env).isEmpty = false := by
  cases hm : matchedFiles env with
  | nil => rw [hm] at hf; cases hf
  | cons a as => rfl

/-- Batch environment with a file failing at extraction, a file failing at
the write step, and a succeeding file. -/
def env1 : Env :=
  { files := ["bad.docx", "wfail.docx", "good.docx"],
    extract := fun f => if f == "bad.docx" then Except.error "boom" else Except.ok c0,
    writeErr := fun n => if n == "wfail.json" then some "disk full" else none }

/-- Batch environment whose only file is literally named dot docx. -/
def env0 : Env :=
  { files := [".docx"], extract := fun _ => Except.ok c0, writeErr := fun _ => none }

/-- Batch environment with one ordinary file. -/
def env2 : Env :=
  { files := ["a.docx"], extract := fun _ => Except.ok c0, writeErr := fun _ => none }

/-- C7: an exception while extracting a file, or while opening and writing
its json file after a successful extraction, is caught — the error is
reported with its detail and the batch goes on: every matched file,
including those after the failing one, still gets its progress message in
the output event stream. -/
theorem C7_batch_resilience (env : Env) (f e : String)
    (hf : f ∈ matchedFiles env)
    (he : env.extract f = Except.error e ∨
      ∃ c, env.extract f = Except.ok c ∧
        env.writeErr (splitextStem f ++ ".json") = some e) :
    Event.msg ("Error processing " ++ f ++ ": " ++ e) ∈ process_docx_files env ∧
    Event.msg ("Full error details:  " ++ e) ∈ process_docx_files env ∧
    ∀ g ∈ matchedFiles env,
      Event.msg ("Processing " ++ g ++ "...") ∈ process_docx_files env := by
  rw [process_eq (matched_ne_empty hf)]
  have hmsgs : Event.msg ("Error processing " ++ f ++ ": " ++ e) ∈ perFile env f ∧
      Event.msg ("Full error details:  " ++ e) ∈ perFile env f := by
    rcases he with hex | ⟨c, hok, hw⟩
    · exact error_msgs_mem env f e hex
    · exact write_error_msgs_mem env f e c hok hw
  refine ⟨?_, ?_, ?_⟩
  · exact List.mem_flatMap.mpr ⟨f, hf, hmsgs.1⟩
  · exact List.mem_flatMap.mpr ⟨f, hf, hmsgs.2⟩
  · intro g hg
    exact List.mem_flatMap.mpr ⟨g, hg, processing_msg_mem env g⟩

/-- C7 witness: with a first file failing at extraction and a second file
failing at the write step, both errors are reported and the third file is
still processed. -/
theorem C7_batch_resilience_witness :
    Event.msg "Error processing bad.docx: boom" ∈ process_docx_files env1 ∧
    Event.msg "Error processing wfail.docx: disk full" ∈ process_docx_files env1 ∧
    Event.msg "Processing good.docx..." ∈ process_docx_files env1 := by
  have h1 := C7_batch_resilience env1 "bad.docx" "boom" (by decide) (Or.inl rfl)
  have h2 := C7_batch_resilience env1 "wfail.docx" "disk full" (by decide)
    (Or.inr ⟨c0, rfl, by decide⟩)
  exact ⟨h1.1, h2.1, h1.2.2 "good.docx" (by decide)⟩

/-- C8 counterexample: for the matched file literally named dot docx, the
claim demands an output named by replacing the docx extension — the name
json alone — but os.path.splitext treats a leading-dot name as having no
extension, so the code appends instead: no write to the replaced name ever
happens and the single write goes to dot docx dot json. -/
theorem C8_counterexample :
    ((process_docx_files env0).countP
        (fun ev => match ev with
          | Event.wrote n _ _ _ _ => n == ".json"
          | _ => false)) = 0 ∧
    ((process_docx_files env0).countP
        (fun ev => match ev with
          | Event.wrote n _ _ _ _ => n == ".docx.json"
          | _ => false)) = 1 := by
  decide

/-- C8 amended: for every successfully processed file whose stem (the part
before the final dot) holds at least one non-dot character, exactly one
write happens, to the stem plus the json extension, as UTF-8 with
ensure_ascii false and indent 4; a matched name that is only dots followed
by docx (such as dot docx) instead gets json appended to the whole name. -/
theorem C8_output_naming (env : Env) (f : String) (sd e : List Char)
    (c : DocumentContent)
    (hf : f.data = sd ++ '.' :: e)
    (he : ∀ ch ∈ e, ch ≠ '.')
    (hs : ∃ ch ∈ sd, ch ≠ '.')
    (hok : env.extract f = Except.ok c)
    (hw : env.writeErr (String.mk sd ++ ".json") = none) :
    perFile env f =
      [Event.msg ("Processing " ++ f ++ "..."),
       Event.wrote (String.mk sd ++ ".json") "utf-8" false 4 c,
       Event.msg ("Successfully created " ++ (String.mk sd ++ ".json"))] ∧
    (f ∈ matchedFiles env →
      Event.wrote (String.mk sd ++ ".json") "utf-8" false 4 c ∈
        process_docx_files env) := by
  have hstem : splitextStem f = String.mk sd := by
    rw [splitextStem, hf, splitextStemL_append sd e he hs]
  have hpf : perFile env f =
      [Event.msg ("Processing " ++ f ++ "..."),
       Event.wrote (String.mk sd ++ ".json") "utf-8" false 4 c,
       Event.msg ("Successfully created " ++ (String.mk sd ++ ".json"))] := by
    rw [perFile, hok]
    simp only [hstem, hw]
  refine ⟨hpf, fun hmem => ?_⟩
  rw [process_eq (matched_ne_empty hmem)]
  refine List.mem_flatMap.mpr ⟨f, hmem, ?_⟩
  rw [hpf]
  exact List.mem_cons_of_mem _ (List.mem_cons_self _ _)

/-- C8 witness: the ordinary sample file is written once to its stem plus
json, UTF-8, unescaped, indented. -/
theorem C8_output_naming_witness :
    Event.wrote "a.json" "utf-8" false 4 c0 ∈ process_docx_files env2 :=
  (C8_output_naming env2 "a.docx" ("a").data ("docx").data c0
      (by decide) (by decide) (by decide) rfl rfl).2 (by decide)

end App
